import Mathlib

/-!
# Verification of the dcrd p2p-node excerpt against its specification

Shallow embedding of the Go sources (config loading, shutdown handling,
wire-protocol constants, service-flag and network pretty-printing, address
normalization) as executable Lean definitions, together with theorems
settling the specification claims.

Machine integers (`uint32`, `uint64`) are modelled as `Nat` with explicit
bounds where a claim mentions them; `time.Duration` (an `int64` count of
nanoseconds) is modelled as `Int`.  Go strings are modelled as Lean
`String` (a list of characters); all the strings involved are ASCII, so
byte positions and character positions coincide.

The file has two parts: all definitions (the embedding) first, then the
theorems.
-/

/-! ## Wire-protocol constants (package wire) -/

/-- `InitialProcotolVersion uint32 = 1` (sic, the Go constant is misspelled). -/
def InitialProcotolVersion : Nat := 1

/-- `ProtocolVersion uint32 = 6`, the latest protocol version the package
supports. -/
def ProtocolVersion : Nat := 6

/-- `NodeBloomVersion uint32 = 2`. -/
def NodeBloomVersion : Nat := 2

/-- `SendHeadersVersion uint32 = 3`. -/
def SendHeadersVersion : Nat := 3

/-- `MaxBlockSizeVersion uint32 = 4`. -/
def MaxBlockSizeVersion : Nat := 4

/-- `FeeFilterVersion uint32 = 5`. -/
def FeeFilterVersion : Nat := 5

/-- `NodeCFVersion uint32 = 6`. -/
def NodeCFVersion : Nat := 6

/-! ## minUint32 (config.go) -/

/-- Embeds `func minUint32(a, b uint32) uint32 { if a < b { return a };
return b }`.  `uint32` values are modelled as `Nat`; the comparison and the
returned values involve no arithmetic, so no wraparound can occur. -/
def minUint32 (a b : Nat) : Nat :=
  if a < b then a else b

/-! ## ServiceFlag (package wire)

`ServiceFlag` is a `uint64` bitset, modelled as `Nat`. -/

/-- `SFNodeNetwork ServiceFlag = 1 << iota` (= 1). -/
def SFNodeNetwork : Nat := 1

/-- `SFNodeBloom ServiceFlag` (= 2). -/
def SFNodeBloom : Nat := 2

/-- `SFNodeCF ServiceFlag` (= 4). -/
def SFNodeCF : Nat := 4

/-- `orderedSFStrings`, the ordered list of service flags the `String`
method iterates over. -/
def orderedSFStrings : List Nat := [SFNodeNetwork, SFNodeBloom, SFNodeCF]

/-- The `sfStrings` map from service flags to their constant names. -/
def sfStrings (f : Nat) : String :=
  if f = SFNodeNetwork then "SFNodeNetwork"
  else if f = SFNodeBloom then "SFNodeBloom"
  else if f = SFNodeCF then "SFNodeCF"
  else ""

/-- `strconv.FormatUint(n, 16)`: lowercase hexadecimal digits, no prefix,
`"0"` for zero. -/
def formatHex (n : Nat) : String :=
  String.mk (Nat.toDigits 16 n)

/-- `strings.TrimRight(s, "|")`: remove all trailing `'|'` characters. -/
def trimRightPipe (s : String) : String :=
  String.mk ((s.data.reverse.dropWhile (fun c => c = '|')).reverse)

/-- `strings.TrimLeft(s, "|")`: remove all leading `'|'` characters. -/
def trimLeftPipe (s : String) : String :=
  String.mk (s.data.dropWhile (fun c => c = '|'))

/-- One iteration of the flag loop in `ServiceFlag.String`: given the
accumulated string and the remaining flag bits, handle one flag. -/
def sfStep (p : String × Nat) (flag : Nat) : String × Nat :=
  if p.2 &&& flag = flag then (p.1 ++ sfStrings flag ++ "|", p.2 - flag) else p

/-- Embeds `func (f ServiceFlag) String() string`: returns `"0x0"` for 0;
otherwise appends `name ++ "|"` for each recognized flag present (clearing
its bit), trims the trailing `'|'`, appends `"|0x" ++ hex` for any
remaining bits, and trims a leading `'|'`. -/
def serviceFlagString (f : Nat) : String :=
  if f = 0 then "0x0"
  else
    let p := orderedSFStrings.foldl sfStep ("", f)
    let s := trimRightPipe p.1
    let s := if p.2 ≠ 0 then s ++ "|0x" ++ formatHex p.2 else s
    trimLeftPipe s

/-! ### Claim-side rendering of `ServiceFlag.String` (for the refinement
statement of claim C3; written from the claim's words, to be compared with
`serviceFlagString` above). -/

/-- The names of exactly those recognized flags whose bit is set in `f`,
in the fixed order `SFNodeNetwork`, `SFNodeBloom`, `SFNodeCF`. -/
def recognizedNames (f : Nat) : List String :=
  (if f.testBit 0 then ["SFNodeNetwork"] else []) ++
    (if f.testBit 1 then ["SFNodeBloom"] else []) ++
    (if f.testBit 2 then ["SFNodeCF"] else [])

/-- The bits of `f` outside the three recognized flags (which occupy the
three lowest bits, mask 7): `f` with its low three bits cleared. -/
def unrecognizedResidue (f : Nat) : Nat := f - f % 8

/-- Join a list of strings with `'|'` separators. -/
def joinPipe : List String → String
  | [] => ""
  | [s] => s
  | s :: rest => s ++ "|" ++ joinPipe rest

/-- The claim's description of `ServiceFlag.String`: `"0x0"` for 0,
otherwise the recognized names in fixed order, with the residue appended
as `"0x" ++ hex`, all joined by `'|'`. -/
def claimServiceFlagString (f : Nat) : String :=
  if f = 0 then "0x0"
  else
    joinPipe (recognizedNames f ++
      (if unrecognizedResidue f ≠ 0 then
        ["0x" ++ formatHex (unrecognizedResidue f)] else []))

/-! ## CurrencyNet (package wire) -/

/-- `MainNet CurrencyNet = 0xd9b400f9`, the network magic for the main
Decred network.  `CurrencyNet` is a `uint32`, modelled as `Nat`. -/
def MainNet : Nat := 0xd9b400f9

/-- Embeds `func (n CurrencyNet) String() string`: look `n` up in the
`bnStrings` map (whose only entry is `MainNet ↦ "MainNet"`), falling back
to `fmt.Sprintf("Unknown CurrencyNet (%d)", uint32(n))`. -/
def CurrencyNetString (n : Nat) : String :=
  if n = MainNet then "MainNet"
  else "Unknown CurrencyNet (" ++ toString n ++ ")"

/-! ## net.SplitHostPort / net.JoinHostPort

`normalizeAddress` in config.go delegates to the Go standard library's
`net.SplitHostPort` and `net.JoinHostPort`; the following embeds those two
functions (over `List Char`, with errors collapsed to `none`). -/

/-- Index of the first occurrence of `c` (Go `byteIndex`). -/
def firstIdx? (c : Char) : List Char → Option Nat
  | [] => none
  | a :: l => if a = c then some 0 else (firstIdx? c l).map (· + 1)

/-- Index of the last occurrence of `c` (Go's `last` helper in package
net). -/
def lastIdx? (c : Char) : List Char → Option Nat
  | [] => none
  | a :: l =>
    match lastIdx? c l with
    | some i => some (i + 1)
    | none => if a = c then some 0 else none

/-- Embeds `net.SplitHostPort(hostport)`.  The port starts after the last
colon; a leading `'['` starts a bracketed (IPv6-literal) host whose
closing `']'` must sit just before that colon; stray brackets or colons
are errors.  All the distinct error returns of the Go function are
collapsed to `none`. -/
def splitHostPortL (hostport : List Char) : Option (List Char × List Char) :=
  match lastIdx? ':' hostport with
  | none => none                                   -- missing port
  | some i =>
    if hostport.head? = some '[' then
      match firstIdx? ']' hostport with
      | none => none                               -- missing ']'
      | some e =>
        if e + 1 = hostport.length then none       -- missing port
        else if e + 1 = i then
          if (firstIdx? '[' (hostport.drop 1)).isSome then none
          else if (firstIdx? ']' (hostport.drop (e + 1))).isSome then none
          else some ((hostport.take e).drop 1, hostport.drop (i + 1))
        else none       -- too many colons, or text after ']' (missing port)
    else
      if (firstIdx? ':' (hostport.take i)).isSome then none  -- too many colons
      else if (firstIdx? '[' hostport).isSome then none
      else if (firstIdx? ']' hostport).isSome then none
      else some (hostport.take i, hostport.drop (i + 1))

/-- Embeds `net.JoinHostPort(host, port)`: a host containing a colon is
assumed to be an IPv6 literal and is bracketed. -/
def joinHostPortL (host port : List Char) : List Char :=
  if (firstIdx? ':' host).isSome then '[' :: host ++ ']' :: ':' :: port
  else host ++ ':' :: port

/-- `net.SplitHostPort` over `String`. -/
def splitHostPort (s : String) : Option (String × String) :=
  (splitHostPortL s.data).map (fun p => (String.mk p.1, String.mk p.2))

/-- `net.JoinHostPort` over `String`. -/
def joinHostPort (host port : String) : String :=
  String.mk (joinHostPortL host.data port.data)

/-- Embeds `func normalizeAddress(addr, defaultPort string) string`:
return `addr` with the default port appended when no port is present. -/
def normalizeAddress (addr defaultPort : String) : String :=
  match splitHostPort addr with
  | none => joinHostPort addr defaultPort
  | some _ => addr

/-! ## removeDuplicateAddresses / normalizeAddresses (config.go) -/

/-- The loop of `removeDuplicateAddresses`: walk the list, keeping a `seen`
set (here a list); emit each entry the first time it is seen. -/
def removeDupLoop (seen : List String) : List String → List String
  | [] => []
  | a :: rest =>
    if a ∈ seen then removeDupLoop seen rest
    else a :: removeDupLoop (a :: seen) rest

/-- Embeds `func removeDuplicateAddresses(addrs []string) []string`:
returns a new slice with all duplicate entries removed. -/
def removeDuplicateAddresses (addrs : List String) : List String :=
  removeDupLoop [] addrs

/-- Embeds `func normalizeAddresses(addrs []string, defaultPort string)`:
normalize every address with the default port, then remove duplicates. -/
def normalizeAddresses (addrs : List String) (defaultPort : String) : List String :=
  removeDuplicateAddresses (addrs.map (fun a => normalizeAddress a defaultPort))

/-- Claim-side dedup (for claim C9, from the claim's words): keep each
distinct element once, in order of first occurrence — keep the head, drop
its later duplicates, recurse. -/
def firstOccurrenceDedup : List String → List String
  | [] => []
  | a :: rest => a :: firstOccurrenceDedup (rest.filter (fun b => b != a))
termination_by l => l.length
decreasing_by
  exact Nat.lt_succ_of_le (List.length_filter_le _ _)

/-! ## Shutdown signal (signal.go) -/

/-- A Go `context.Context` as far as `shutdownRequested` observes it: only
whether it has been canceled (its `Done` channel closed). -/
structure GoContext where
  canceled : Bool

/-- Embeds `func shutdownRequested(ctx context.Context) bool`: a `select`
on `ctx.Done()` with a `default` branch — it returns `true` exactly when
the context has been canceled, and `false` otherwise. -/
def shutdownRequested (ctx : GoContext) : Bool :=
  ctx.canceled

/-! ## Configuration (config.go)

The configuration options touched by `loadConfig` after parsing.  Path
fields (`HomeDir`, `DataDir`, `LogDir`, ...) and the OS-dependent path
manipulation on them are elided: no claim concerns them and they influence
no modelled branch.  `time.Duration` fields are `Int` nanosecond counts. -/

/-- `time.Second` in nanoseconds. -/
def timeSecond : Int := 1000000000

/-- `time.Hour` in nanoseconds. -/
def timeHour : Int := 3600 * timeSecond

/-- `defaultMaxSameIP = 5`. -/
def defaultMaxSameIP : Int := 5

/-- `defaultMaxPeers = 125`. -/
def defaultMaxPeers : Int := 125

/-- `defaultBanDuration = time.Hour * 24`. -/
def defaultBanDuration : Int := 24 * timeHour

/-- `defaultBanThreshold uint32 = 100`. -/
def defaultBanThreshold : Nat := 100

/-- `defaultBlockMinSize = 0`. -/
def defaultBlockMinSize : Nat := 0

/-- `defaultBlockMaxSize = 375000`. -/
def defaultBlockMaxSize : Nat := 375000

/-- `blockMaxSizeMin = 1000`. -/
def blockMaxSizeMin : Nat := 1000

/-- `defaultMaxOrphanTransactions = 1000`. -/
def defaultMaxOrphanTransactions : Int := 1000

/-- `defaultDbType = "ffldb"`. -/
def defaultDbType : String := "ffldb"

/-- `knownDbTypes = database.SupportedDrivers()`: the one driver registered
by the blank `database/ffldb` import. -/
def knownDbTypes : List String := ["ffldb"]

/-- `mempool.DefaultBlockPrioritySize` (20000, per the source comment at
its use site). -/
def defaultBlockPrioritySize : Nat := 20000

/-- `activeNetParams.DefaultPort` for the main network ("9108", per the
source comments at its use sites). -/
def mainNetDefaultPort : String := "9108"

/-- `activeNetParams.rpcPort` for the main network ("9109", from
`mainNetParams` in params.go). -/
def mainNetRPCPort : String := "9109"

/-- `activeNetParams.MaximumBlockSizes[0]` for the main network (393216,
per the source comment at its use site). -/
def mainNetMaximumBlockSize : Nat := 393216

/-- `chaincfg.MainNetParams.AcceptNonStdTxs`: the main network rejects
non-standard transactions by default (per the source comment at the
assignment). -/
def mainNetAcceptNonStdTxs : Bool := false

/-- The configuration fields of `type config struct` that the modelled
portion of `loadConfig` reads or writes. -/
structure Config where
  MaxSameIP : Int
  MaxPeers : Int
  BanDuration : Int
  BanThreshold : Nat
  Listeners : List String
  RPCListeners : List String
  AddPeers : List String
  ConnectPeers : List String
  DbType : String
  BlockMinSize : Nat
  BlockMaxSize : Nat
  BlockPrioritySize : Nat
  MaxOrphanTxs : Int
  Generate : Bool
  MiningAddrs : List String
  RPCUser : String
  RPCPass : String
  DisableRPC : Bool
  DisableTLS : Bool
  DisableListen : Bool
  DisableDNSSeed : Bool
  AcceptNonStd : Bool
  DropAddrIndex : Bool
  DropTxIndex : Bool
  DropExistsAddrIndex : Bool
  DropCFIndex : Bool
  deriving DecidableEq

/-- The default config literal at the top of `loadConfig` ("start with a
default config with sane settings"). -/
def defaultConfig : Config where
  MaxSameIP := defaultMaxSameIP
  MaxPeers := defaultMaxPeers
  BanDuration := defaultBanDuration
  BanThreshold := defaultBanThreshold
  Listeners := []
  RPCListeners := []
  AddPeers := []
  ConnectPeers := []
  DbType := defaultDbType
  BlockMinSize := defaultBlockMinSize
  BlockMaxSize := defaultBlockMaxSize
  BlockPrioritySize := defaultBlockPrioritySize
  MaxOrphanTxs := defaultMaxOrphanTransactions
  Generate := false
  MiningAddrs := []
  RPCUser := ""
  RPCPass := ""
  DisableRPC := false
  DisableTLS := false
  DisableListen := false
  DisableDNSSeed := false
  AcceptNonStd := false
  DropAddrIndex := false
  DropTxIndex := false
  DropExistsAddrIndex := false
  DropCFIndex := false

/-- Outcome of the pre-parse `preParser.Parse()` call: success, a
`*flags.Error` of type `ErrHelp`, any other `*flags.Error`, or a non-nil
error that is not a `*flags.Error` (in which case execution continues). -/
inductive PreParseResult where
  | ok
  | flagsErrHelp
  | flagsErrOther
  | otherErr
  deriving DecidableEq

/-- Outcome of `flags.NewIniParser(parser).ParseFile`: success, an
`*os.PathError` (only warned about), or any other error (fatal). -/
inductive IniParseResult where
  | ok
  | pathErr
  | otherErr
  deriving DecidableEq

/-- `runServiceCommand` is only set to a real function on Windows; it is
never assigned in this source, so it stays `nil`. -/
def runServiceCommand : Option (String → Option String) := none

/-- The default config file path constant (`~/.dcrd/dcrd.conf`); treated
as an opaque string, only compared for equality. -/
def defaultConfigFile : String := "~/.dcrd/dcrd.conf"

/-- The environment of one `loadConfig` run: the outcomes of its external
calls (flag parsing, file system, DNS, address decoding) and the
configuration resulting from the parse stages. -/
structure LoadEnv where
  /-- Outcome of the `preParser.Parse()` pre-parse. -/
  preParse : PreParseResult
  /-- `serviceOpts.ServiceCommand` after the pre-parse. -/
  serviceCommand : String
  /-- `preCfg.ConfigFile` after the pre-parse. -/
  configFile : String
  /-- Outcome of parsing the (non-default) config file. -/
  iniParse : IniParseResult
  /-- Error from `os.MkdirAll(cfg.HomeDir, 0700)`, if any. -/
  mkdirErr : Option String
  /-- The configuration after the config-file and command-line parses
  (defaults overwritten by any specified options). -/
  cfg : Config
  /-- Result of `net.LookupHost("localhost")`; `none` is a lookup error. -/
  lookupLocalhost : Option (List String)
  /-- Whether `dcrutil.NewAmount(cfg.MinRelayTxFee)` succeeds. -/
  minRelayFeeOk : Bool
  /-- Whether `dcrutil.DecodeAddress` succeeds on a mining address. -/
  decodeAddrOk : String → Bool
  /-- Whether a decoded mining address `IsForNet` the active network. -/
  addrIsForNet : String → Bool
  /-- Whether `parseNetworkInterfaces` (via `parseListeners`) succeeds. -/
  parseListenersOk : Bool
  /-- The remaining command-line arguments returned on success. -/
  remainingArgs : List String

/-- The result of `loadConfig`, which either exits the process or returns
the Go triple `(*config, []string, error)`. -/
inductive LoadOutcome where
  | exited (code : Nat)
  | returned (cfg : Option Config) (args : Option (List String)) (err : Option String)
  deriving DecidableEq

/-- The mining-address validation loop in `loadConfig`: each address must
decode and be for the active network; the first failure aborts. -/
def checkMiningAddrs (decodeOk forNet : String → Bool) : List String → Option String
  | [] => none
  | a :: rest =>
    if ¬ decodeOk a then some ("loadConfig: mining address failed to decode: " ++ a)
    else if ¬ forNet a then some ("loadConfig: mining address is on the wrong network: " ++ a)
    else checkMiningAddrs decodeOk forNet rest

/-- The RPC listeners allowed when TLS is disabled. -/
def allowedTLSListeners : List String := ["localhost", "127.0.0.1", "::1"]

/-- The `--notls` validation loop: every RPC listener must split into
host:port and have a localhost host. -/
def checkRPCListenersTLS : List String → Option String
  | [] => none
  | addr :: rest =>
    match splitHostPort addr with
    | none => some ("loadConfig: RPC listen interface is invalid: " ++ addr)
    | some hp =>
      if hp.1 ∈ allowedTLSListeners then checkRPCListenersTLS rest
      else some ("loadConfig: the --notls option may not be used when binding RPC to non localhost addresses: " ++ addr)

/-- Late stage of `loadConfig`: add default ports and remove duplicates
from the listener and peer address lists, validate the `--notls`
constraint, parse the network interfaces, and return the final config. -/
def loadConfigFinal (env : LoadEnv) (cfg0 : Config) : LoadOutcome :=
  -- Add default ports and remove duplicate addresses.
  let cfg1 := { cfg0 with
    Listeners := normalizeAddresses cfg0.Listeners mainNetDefaultPort }
  let cfg2 := { cfg1 with
    RPCListeners := normalizeAddresses cfg1.RPCListeners mainNetRPCPort }
  -- Only allow TLS to be disabled if the RPC is bound to localhost.
  let tlsErr := if ¬ cfg2.DisableRPC ∧ cfg2.DisableTLS then
    checkRPCListenersTLS cfg2.RPCListeners else none
  match tlsErr with
  | some e => .returned none none (some e)
  | none =>
    let cfg3 := { cfg2 with
      AddPeers := normalizeAddresses cfg2.AddPeers mainNetDefaultPort,
      ConnectPeers := normalizeAddresses cfg2.ConnectPeers mainNetDefaultPort }
    -- Parse the state of the supported network interfaces.
    if ¬ env.parseListenersOk then
      .returned none none (some "loadConfig: parsing network interfaces failed")
    else
      .returned (some cfg3) (some env.remainingArgs) none

/-- Middle stage of `loadConfig`: validate the minimum relay fee, the max
block size and the orphan limit, clamp the block priority and minimum
sizes, and validate the mining addresses. -/
def loadConfigMining (env : LoadEnv) (cfg0 : Config) : LoadOutcome :=
  -- Validate the minrelaytxfee.
  if ¬ env.minRelayFeeOk then
    .returned none none (some "loadConfig: invalid minrelaytxfee")
  -- Ensure the specified max block size is within the allowed range.
  else if cfg0.BlockMaxSize < blockMaxSizeMin ∨
      mainNetMaximumBlockSize - 1000 < cfg0.BlockMaxSize then
    .returned none none (some "loadConfig: the blockmaxsize option is out of range")
  -- Limit the max orphan count to a sane value.
  else if cfg0.MaxOrphanTxs < (0 : Int) then
    .returned none none (some "loadConfig: the maxorphantx option may not be less than 0")
  else
    -- Limit the block priority and minimum block sizes to max block size.
    let cfg1 := { cfg0 with
      BlockPrioritySize := minUint32 cfg0.BlockPrioritySize cfg0.BlockMaxSize,
      BlockMinSize := minUint32 cfg0.BlockMinSize cfg0.BlockMaxSize }
    -- Check mining addresses are valid.
    match checkMiningAddrs env.decodeAddrOk env.addrIsForNet cfg1.MiningAddrs with
    | some e => .returned none none (some e)
    | none =>
      -- At least one mining address when the generate flag is set.
      if cfg1.Generate ∧ cfg1.MiningAddrs = [] then
        .returned none none (some "loadConfig: the generate flag is set, but there are no mining addresses specified")
      else
        loadConfigFinal env cfg1

/-- Validation stage of `loadConfig` on the parsed configuration: database
type, ban duration, default listeners, RPC defaults. -/
def loadConfigValidate (env : LoadEnv) (cfg0 : Config) : LoadOutcome :=
  -- Validate database type.
  if cfg0.DbType ∉ knownDbTypes then
    .returned none none (some "loadConfig: the specified database type is invalid")
  -- Don't allow ban durations that are too short.
  else if cfg0.BanDuration < timeSecond then
    .returned none none (some "loadConfig: the banduration option may not be less than 1s")
  else
    -- Add the default listener if none were specified.
    let cfg1 := if cfg0.Listeners = [] then
      { cfg0 with Listeners := [joinHostPort "" mainNetDefaultPort] } else cfg0
    -- The RPC server is disabled if no username or password is provided.
    let cfg2 := if cfg1.RPCUser = "" ∨ cfg1.RPCPass = "" then
      { cfg1 with DisableRPC := true } else cfg1
    -- Default RPC to listen on localhost only.
    if ¬ cfg2.DisableRPC ∧ cfg2.RPCListeners = [] ∧ env.lookupLocalhost = none then
      .returned none none (some "loadConfig: lookup localhost failed")
    else
      let cfg3 := if ¬ cfg2.DisableRPC ∧ cfg2.RPCListeners = [] then
        { cfg2 with RPCListeners :=
            (env.lookupLocalhost.getD []).map (fun a => joinHostPort a mainNetRPCPort) }
        else cfg2
      loadConfigMining env cfg3

/-- Embeds `func loadConfig() (*config, []string, error)`, stage by stage:
pre-parse (exiting the process on a `*flags.Error`), the Windows-only
service command, config-file parse, home-directory creation, then the
validation/normalization pipeline (`loadConfigValidate`,
`loadConfigMining`, `loadConfigFinal`).  Every `return nil, nil, err` in
the source becomes `.returned none none (some msg)`; the final success
return becomes `.returned (some cfg) (some args) none`. -/
def loadConfigModel (env : LoadEnv) : LoadOutcome :=
  -- Pre-parse the command line; a non-help *flags.Error prints and exits 1,
  -- a help error prints and exits 0, anything else continues.
  if env.preParse = PreParseResult.flagsErrOther then .exited 1
  else if env.preParse = PreParseResult.flagsErrHelp then .exited 0
  -- Perform service command and exit if specified; runServiceCommand is
  -- nil in this source, so this branch never runs.
  else if env.serviceCommand ≠ "" ∧ runServiceCommand.isSome then .exited 0
  -- createDefaultConfigFile: side effect only, failure merely warns.
  -- Load additional config from a non-default config file.
  else if env.configFile ≠ defaultConfigFile ∧ env.iniParse = IniParseResult.otherErr then
    .returned none none (some "loadConfig: error parsing config file")
  else
    -- Create the home directory if it does not already exist.
    match env.mkdirErr with
    | some e => .returned none none (some ("loadConfig: failed to create home directory: " ++ e))
    | none =>
      -- Default policy for relaying non-standard transactions.
      loadConfigValidate env { env.cfg with AcceptNonStd := mainNetAcceptNonStdTxs }

/-! ## dcrdMain (dcrd.go) -/

/-- The environment of one `dcrdMain` run: the `loadConfig` outcome, the
shutdown-context state observed at each `shutdownRequested` checkpoint,
and the outcomes of the external calls. -/
structure MainEnv where
  /-- What `loadConfig()` did. -/
  loadResult : LoadOutcome
  /-- Whether the shutdown context was already canceled at the first
  `shutdownRequested(ctx)` checkpoint (before `loadBlockDB`). -/
  canceledAtFirstCheckpoint : Bool
  /-- Error from `loadBlockDB()`, if any. -/
  dbLoadErr : Option String
  /-- Whether the shutdown context was canceled at the second
  `shutdownRequested(ctx)` checkpoint (after `loadBlockDB`). -/
  canceledAtSecondCheckpoint : Bool
  /-- Error from whichever `indexers.Drop*Index` call runs, if any. -/
  indexDropErr : Option String
  /-- Error from `newServer(...)`, if any. -/
  newServerErr : Option String

/-- What a completed `dcrdMain` call did: the error it returned, and
whether the p2p server was created (`newServer`) and started
(`server.Start()`). -/
structure MainResult where
  err : Option String
  serverCreated : Bool
  serverStarted : Bool
  deriving DecidableEq

/-- Embeds `func dcrdMain() error`.  `none` means control never returned
to `dcrdMain` because the process already exited inside `loadConfig`;
`dcrdMain` itself has no exit path (it only returns, so its deferred
cleanups run).  The drop-index branches return before any server exists;
the two `shutdownRequested` checkpoints return `nil` early. -/
def dcrdMainModel (env : MainEnv) : Option MainResult :=
  match env.loadResult with
  | .exited _ => none
  | .returned _ _ (some e) => some ⟨some e, false, false⟩
  | .returned none _ none => none   -- loadConfig never returns this shape
  | .returned (some cfg) _ none =>
    -- Return now if a shutdown signal was triggered.
    if env.canceledAtFirstCheckpoint then some ⟨none, false, false⟩
    else
      -- Load the block database.
      match env.dbLoadErr with
      | some e => some ⟨some e, false, false⟩
      | none =>
        -- Return now if a shutdown signal was triggered.
        if env.canceledAtSecondCheckpoint then some ⟨none, false, false⟩
        -- Drop indexes and exit if requested.
        else if cfg.DropAddrIndex then some ⟨env.indexDropErr, false, false⟩
        else if cfg.DropTxIndex then some ⟨env.indexDropErr, false, false⟩
        else if cfg.DropExistsAddrIndex then some ⟨env.indexDropErr, false, false⟩
        else if cfg.DropCFIndex then some ⟨env.indexDropErr, false, false⟩
        else
          -- Create server and start it.
          match env.newServerErr with
          | some e => some ⟨some e, false, false⟩
          | none => some ⟨none, true, true⟩

/-! ## Concrete environments used for evaluation -/

/-- A benign `loadConfig` environment: successful pre-parse, default
config file, no filesystem or lookup failures, default configuration. -/
def okLoadEnv : LoadEnv where
  preParse := PreParseResult.ok
  serviceCommand := ""
  configFile := defaultConfigFile
  iniParse := IniParseResult.ok
  mkdirErr := none
  cfg := defaultConfig
  lookupLocalhost := some ["127.0.0.1"]
  minRelayFeeOk := true
  decodeAddrOk := fun _ => true
  addrIsForNet := fun _ => true
  parseListenersOk := true
  remainingArgs := []

/-- `okLoadEnv` with a failing command-line pre-parse (for example an
unknown option): `preParser.Parse()` returns a non-help `*flags.Error`. -/
def parseFailLoadEnv : LoadEnv :=
  { okLoadEnv with preParse := PreParseResult.flagsErrOther }

/-- `okLoadEnv` with a ban duration of 0 (shorter than one second). -/
def shortBanLoadEnv : LoadEnv :=
  { okLoadEnv with cfg := { defaultConfig with BanDuration := 0 } }

/-- A `dcrdMain` environment whose `loadConfig` failed with an error. -/
def loadFailMainEnv : MainEnv where
  loadResult := LoadOutcome.returned none none (some "boom")
  canceledAtFirstCheckpoint := false
  dbLoadErr := none
  canceledAtSecondCheckpoint := false
  indexDropErr := none
  newServerErr := none

/-- A `dcrdMain` environment with a successful `loadConfig` and the
shutdown context already canceled at the first checkpoint. -/
def canceledMainEnv : MainEnv where
  loadResult := LoadOutcome.returned (some defaultConfig) (some []) none
  canceledAtFirstCheckpoint := true
  dbLoadErr := none
  canceledAtSecondCheckpoint := false
  indexDropErr := none
  newServerErr := none

/-! ## Theorems -/

/-- `(a ++ b).data = a.data ++ b.data` for Lean strings; used to reason
about string concatenation throughout this development. -/
theorem string_data_append (a b : String) : (a ++ b).data = a.data ++ b.data :=
  rfl

/-- C1: the handshake negotiation helper `minUint32` returns `a` when
`a < b` and `b` otherwise, i.e. the minimum of the two, for every pair of
unsigned 32-bit integers. -/
theorem c1_minUint32_is_min (a b : Nat) (ha : a < 2 ^ 32) (hb : b < 2 ^ 32) :
    (a < b → minUint32 a b = a) ∧ (¬ a < b → minUint32 a b = b) ∧
      minUint32 a b = min a b := by
  refine ⟨fun h => by simp [minUint32, h], fun h => by simp [minUint32, h], ?_⟩
  unfold minUint32
  rcases lt_or_ge a b with h | h
  · rw [if_pos h, min_eq_left (le_of_lt h)]
  · rw [if_neg (not_lt.mpr h), min_eq_right h]

/-- Witness for C1 at `a = 3`, `b = 7`. -/
theorem c1_minUint32_is_min_witness :
    (3 < 7 → minUint32 3 7 = 3) ∧ (¬ 3 < 7 → minUint32 3 7 = 7) ∧
      minUint32 3 7 = min 3 7 :=
  c1_minUint32_is_min 3 7 (by decide) (by decide)

/-- C2: the feature-gate version constants are strictly increasing in the
order base < bloom-filter < header-announcement < larger-block-size <
fee-filter < committed-filter, each equals its documented value, and the
latest supported `ProtocolVersion` equals `NodeCFVersion`. -/
theorem c2_protocol_versions_ordered :
    InitialProcotolVersion = 1 ∧ NodeBloomVersion = 2 ∧
      SendHeadersVersion = 3 ∧ MaxBlockSizeVersion = 4 ∧
      FeeFilterVersion = 5 ∧ NodeCFVersion = 6 ∧
      InitialProcotolVersion < NodeBloomVersion ∧
      NodeBloomVersion < SendHeadersVersion ∧
      SendHeadersVersion < MaxBlockSizeVersion ∧
      MaxBlockSizeVersion < FeeFilterVersion ∧
      FeeFilterVersion < NodeCFVersion ∧
      ProtocolVersion = NodeCFVersion := by
  decide

/-- C5: `MainNet` is a 4-byte (`uint32`) magic value `0xd9b400f9`, and
`CurrencyNet.String` returns `"MainNet"` exactly on that value; any other
value is rendered in the `"Unknown CurrencyNet (n)"` form, so the main
network is distinguished from any other. -/
theorem c5_currency_net_string (n : Nat) (hn : n < 2 ^ 32) :
    MainNet = 0xd9b400f9 ∧ MainNet < 2 ^ 32 ∧
      (CurrencyNetString n = "MainNet" ↔ n = MainNet) ∧
      (n ≠ MainNet →
        CurrencyNetString n = "Unknown CurrencyNet (" ++ toString n ++ ")") := by
  clear hn
  refine ⟨rfl, by decide, ⟨fun h => ?_, fun h => by simp [CurrencyNetString, h]⟩,
    fun h => by simp [CurrencyNetString, h]⟩
  by_contra hne
  rw [CurrencyNetString, if_neg hne] at h
  have hd := congrArg String.data h
  simp only [string_data_append] at hd
  exact absurd hd (by simp [toString])

/-- Witness for C5 at `n = 0`. -/
theorem c5_currency_net_string_witness :
    MainNet = 0xd9b400f9 ∧ MainNet < 2 ^ 32 ∧
      (CurrencyNetString 0 = "MainNet" ↔ 0 = MainNet) ∧
      (0 ≠ MainNet →
        CurrencyNetString 0 = "Unknown CurrencyNet (" ++ toString 0 ++ ")") :=
  c5_currency_net_string 0 (by decide)

/-! ### Deduplication lemmas (config.go) -/

/-- Not being a member of `a :: seen` splits into two boolean tests. -/
theorem decide_not_mem_cons (x a : String) (seen : List String) :
    decide (x ∉ a :: seen) = ((x != a) && decide (x ∉ seen)) := by
  by_cases h1 : x = a <;> by_cases h2 : x ∈ seen <;> simp [h1, h2]

/-- The dedup loop with a `seen` set computes the first-occurrence dedup
of the entries not yet seen. -/
theorem removeDupLoop_eq_dedup (l : List String) : ∀ seen,
    removeDupLoop seen l =
      firstOccurrenceDedup (l.filter (fun b => decide (b ∉ seen))) := by
  induction l with
  | nil => intro seen; simp [removeDupLoop, firstOccurrenceDedup]
  | cons a rest ih =>
    intro seen
    rw [List.filter_cons]
    by_cases ha : a ∈ seen
    · have hpa : decide (a ∉ seen) = false := by simp [ha]
      rw [removeDupLoop, if_pos ha, hpa]
      simpa using ih seen
    · have hpa : decide (a ∉ seen) = true := by simp [ha]
      rw [removeDupLoop, if_neg ha, hpa]
      simp only [if_true]
      have hf : List.filter (fun b => decide (b ∉ a :: seen)) rest
          = List.filter (fun b => b != a)
              (List.filter (fun b => decide (b ∉ seen)) rest) := by
        rw [List.filter_filter]
        exact List.filter_congr (fun x _ => decide_not_mem_cons x a seen)
      rw [firstOccurrenceDedup, ih (a :: seen), hf]

/-- `removeDuplicateAddresses` equals the claim-side first-occurrence
dedup. -/
theorem removeDuplicateAddresses_eq_dedup (l : List String) :
    removeDuplicateAddresses l = firstOccurrenceDedup l := by
  rw [removeDuplicateAddresses, removeDupLoop_eq_dedup]
  congr 1
  exact List.filter_eq_self.mpr (fun a _ => by simp)

/-- Each element of `l` occurs exactly once in its first-occurrence
dedup; elements not in `l` do not occur. -/
theorem count_firstOccurrenceDedup (l : List String) (a : String) :
    (firstOccurrenceDedup l).count a = if a ∈ l then 1 else 0 := by
  induction l using firstOccurrenceDedup.induct with
  | case1 => simp [firstOccurrenceDedup]
  | case2 b rest ih =>
    rw [firstOccurrenceDedup]
    rw [List.count_cons, ih]
    by_cases hab : a = b
    · subst hab
      simp [List.mem_filter]
    · simp [List.mem_filter, hab, Ne.symm hab, bne_iff_ne]

/-- Membership in the first-occurrence dedup coincides with membership in
the original list. -/
theorem mem_firstOccurrenceDedup (l : List String) (a : String) :
    a ∈ firstOccurrenceDedup l ↔ a ∈ l := by
  induction l using firstOccurrenceDedup.induct with
  | case1 => simp [firstOccurrenceDedup]
  | case2 b rest ih =>
    rw [firstOccurrenceDedup]
    by_cases hab : a = b
    · subst hab; simp
    · simp [ih, List.mem_filter, hab, bne_iff_ne]

/-! ### loadConfig stage lemmas -/

/-- A successful `loadConfigFinal` returns exactly the input config with
the four address lists normalized (default ports added, duplicates
removed), and the remaining command-line arguments. -/
theorem loadConfigFinal_success (env : LoadEnv) (c cfg : Config) (args : List String)
    (h : loadConfigFinal env c = .returned (some cfg) (some args) none) :
    cfg = { c with
      Listeners := normalizeAddresses c.Listeners mainNetDefaultPort,
      RPCListeners := normalizeAddresses c.RPCListeners mainNetRPCPort,
      AddPeers := normalizeAddresses c.AddPeers mainNetDefaultPort,
      ConnectPeers := normalizeAddresses c.ConnectPeers mainNetDefaultPort } ∧
    args = env.remainingArgs := by
  simp only [loadConfigFinal] at h
  split at h
  · exact absurd h (by simp)
  · split at h
    · exact absurd h (by simp)
    · simp only [LoadOutcome.returned.injEq, Option.some.injEq] at h
      exact ⟨h.1.symm, h.2.1.symm⟩

/-- A successful `loadConfigMining` run delegates to `loadConfigFinal` on
the config with the block priority and minimum sizes clamped. -/
theorem loadConfigMining_success (env : LoadEnv) (c cfg : Config) (args : List String)
    (h : loadConfigMining env c = .returned (some cfg) (some args) none) :
    loadConfigFinal env { c with
      BlockPrioritySize := minUint32 c.BlockPrioritySize c.BlockMaxSize,
      BlockMinSize := minUint32 c.BlockMinSize c.BlockMaxSize } =
      .returned (some cfg) (some args) none := by
  simp only [loadConfigMining] at h
  iterate 6 (all_goals try split at h)
  all_goals first
    | exact h
    | exact absurd h (by simp)

/-- A successful `loadConfigValidate` run delegates to `loadConfigMining`
on a config that preserves the peer/ban limit fields. -/
theorem loadConfigValidate_success (env : LoadEnv) (c cfg : Config) (args : List String)
    (h : loadConfigValidate env c = .returned (some cfg) (some args) none) :
    ∃ c2 : Config, c2.MaxPeers = c.MaxPeers ∧ c2.MaxSameIP = c.MaxSameIP ∧
      c2.BanDuration = c.BanDuration ∧ c2.BanThreshold = c.BanThreshold ∧
      loadConfigMining env c2 = .returned (some cfg) (some args) none := by
  simp only [loadConfigValidate] at h
  iterate 10 (all_goals try split at h)
  all_goals first
    | (refine ⟨_, ?_, ?_, ?_, ?_, h⟩ <;> rfl)
    | simp at h

/-- A successful `loadConfigModel` run has passed the pre-parse and
filesystem stages and delegates to `loadConfigValidate` on the parsed
config with the non-standard-transaction policy applied. -/
theorem loadConfigModel_success (env : LoadEnv) (cfg : Config) (args : List String)
    (h : loadConfigModel env = .returned (some cfg) (some args) none) :
    loadConfigValidate env { env.cfg with AcceptNonStd := mainNetAcceptNonStdTxs } =
      .returned (some cfg) (some args) none := by
  simp only [loadConfigModel] at h
  iterate 6 (all_goals try split at h)
  all_goals first
    | exact h
    | exact absurd h (by simp)

/-- `loadConfigFinal` never exits the process. -/
theorem loadConfigFinal_ne_exited (env : LoadEnv) (c0 : Config) (code : Nat) :
    loadConfigFinal env c0 ≠ .exited code := by
  intro h
  simp only [loadConfigFinal] at h
  iterate 4 (all_goals try split at h)
  all_goals simp at h

/-- `loadConfigMining` never exits the process. -/
theorem loadConfigMining_ne_exited (env : LoadEnv) (c0 : Config) (code : Nat) :
    loadConfigMining env c0 ≠ .exited code := by
  intro h
  simp only [loadConfigMining] at h
  iterate 6 (all_goals try split at h)
  all_goals first
    | exact loadConfigFinal_ne_exited env _ code h
    | simp at h

/-- `loadConfigValidate` never exits the process. -/
theorem loadConfigValidate_ne_exited (env : LoadEnv) (c0 : Config) (code : Nat) :
    loadConfigValidate env c0 ≠ .exited code := by
  intro h
  simp only [loadConfigValidate] at h
  iterate 10 (all_goals try split at h)
  all_goals first
    | exact loadConfigMining_ne_exited env _ code h
    | simp at h

/-- Every `returned` outcome of `loadConfigFinal` is either an error with
nil config and nil args, or a config with args and nil error. -/
theorem loadConfigFinal_returned_shape (env : LoadEnv) (c0 : Config)
    (c : Option Config) (a : Option (List String)) (e : Option String)
    (h : loadConfigFinal env c0 = .returned c a e) :
    (c = none ∧ a = none ∧ e ≠ none) ∨ (c ≠ none ∧ a ≠ none ∧ e = none) := by
  simp only [loadConfigFinal] at h
  iterate 4 (all_goals try split at h)
  all_goals
    injection h with h1 h2 h3
    subst h1
    subst h2
    subst h3
    simp

/-- Every `returned` outcome of `loadConfigMining` is either an error with
nil config and nil args, or a config with args and nil error. -/
theorem loadConfigMining_returned_shape (env : LoadEnv) (c0 : Config)
    (c : Option Config) (a : Option (List String)) (e : Option String)
    (h : loadConfigMining env c0 = .returned c a e) :
    (c = none ∧ a = none ∧ e ≠ none) ∨ (c ≠ none ∧ a ≠ none ∧ e = none) := by
  simp only [loadConfigMining] at h
  iterate 6 (all_goals try split at h)
  all_goals first
    | exact loadConfigFinal_returned_shape env _ c a e h
    | (injection h with h1 h2 h3
       subst h1
       subst h2
       subst h3
       simp)

/-- Every `returned` outcome of `loadConfigValidate` is either an error
with nil config and nil args, or a config with args and nil error. -/
theorem loadConfigValidate_returned_shape (env : LoadEnv) (c0 : Config)
    (c : Option Config) (a : Option (List String)) (e : Option String)
    (h : loadConfigValidate env c0 = .returned c a e) :
    (c = none ∧ a = none ∧ e ≠ none) ∨ (c ≠ none ∧ a ≠ none ∧ e = none) := by
  simp only [loadConfigValidate] at h
  iterate 10 (all_goals try split at h)
  all_goals first
    | exact loadConfigMining_returned_shape env _ c a e h
    | (injection h with h1 h2 h3
       subst h1
       subst h2
       subst h3
       simp)

/-- C4 (counterexample): with an invalid command line (the pre-parse
returns a non-help `*flags.Error`), `loadConfig` exits the process with
status 1 instead of returning a non-nil error. -/
theorem c4_counterexample_loadConfig_exits :
    loadConfigModel parseFailLoadEnv = LoadOutcome.exited 1 := rfl

/-- C4 (amended): once the command-line pre-parse has succeeded,
`loadConfig` never exits the process; every `return` of `loadConfig` is
either a non-nil error with nil config and nil args, or a config with args
and nil error; and `dcrdMain` surfaces a `loadConfig` error to its caller
at once — before the block database is opened, any index is dropped, or
the p2p server is created or started — without itself exiting the
process.  (`loadConfig` itself exits directly on a failed pre-parse or a
help request, which is what the counterexample records.) -/
theorem c4_fatal_config_errors_surfaced :
    (∀ env : LoadEnv, env.preParse = PreParseResult.ok →
      ∀ code, loadConfigModel env ≠ LoadOutcome.exited code) ∧
    (∀ (env : LoadEnv) (c : Option Config) (a : Option (List String)) (e : Option String),
      loadConfigModel env = LoadOutcome.returned c a e →
      (c = none ∧ a = none ∧ e ≠ none) ∨ (c ≠ none ∧ a ≠ none ∧ e = none)) ∧
    (∀ (menv : MainEnv) (msg : String),
      menv.loadResult = LoadOutcome.returned none none (some msg) →
      dcrdMainModel menv = some ⟨some msg, false, false⟩) := by
  refine ⟨?_, ?_, ?_⟩
  · intro env hok code h
    simp only [loadConfigModel, hok] at h
    iterate 6 (all_goals try split at h)
    all_goals first
      | exact loadConfigValidate_ne_exited env _ code h
      | simp_all [runServiceCommand]
  · intro env c a e h
    simp only [loadConfigModel] at h
    iterate 6 (all_goals try split at h)
    all_goals first
      | exact loadConfigValidate_returned_shape env _ c a e h
      | (injection h with h1 h2 h3
         subst h1
         subst h2
         subst h3
         simp)
      | simp at h
  · intro menv msg hl
    simp [dcrdMainModel, hl]

/-- Witness for C4 (amended) at concrete environments: a successful
pre-parse cannot lead to exit code 1, and a `loadConfig` error is returned
by `dcrdMain` with no server created or started. -/
theorem c4_fatal_config_errors_surfaced_witness :
    loadConfigModel okLoadEnv ≠ LoadOutcome.exited 1 ∧
      dcrdMainModel loadFailMainEnv = some ⟨some "boom", false, false⟩ :=
  ⟨c4_fatal_config_errors_surfaced.1 okLoadEnv rfl 1,
    c4_fatal_config_errors_surfaced.2.2 loadFailMainEnv "boom" rfl⟩

/-- C6: whenever the parsed configuration has a ban duration shorter than
one second, `loadConfig` fails: it returns a nil config, nil args and a
non-nil error. -/
theorem c6_short_banduration_fails (env : LoadEnv)
    (hok : env.preParse = PreParseResult.ok)
    (hban : env.cfg.BanDuration < timeSecond) :
    ∃ msg, loadConfigModel env = LoadOutcome.returned none none (some msg) := by
  rw [loadConfigModel, if_neg (by simp [hok]), if_neg (by simp [hok]),
    if_neg (by simp [runServiceCommand])]
  split
  · exact ⟨_, rfl⟩
  · split
    · exact ⟨_, rfl⟩
    · rw [loadConfigValidate]
      split
      · exact ⟨_, rfl⟩
      · exact ⟨_, rfl⟩

/-- Witness for C6: a default environment with ban duration 0. -/
theorem c6_short_banduration_fails_witness :
    ∃ msg, loadConfigModel shortBanLoadEnv =
      LoadOutcome.returned none none (some msg) :=
  c6_short_banduration_fails shortBanLoadEnv rfl (by decide)

/-- C7: `shutdownRequested` returns `true` exactly when the shutdown
context is canceled, and `dcrdMain`, observing a requested shutdown at
either of its checkpoints before server creation, returns `nil` without
creating or starting the p2p server. -/
theorem c7_shutdown_before_server :
    (∀ ctx : GoContext, shutdownRequested ctx = true ↔ ctx.canceled = true) ∧
    (∀ (menv : MainEnv) (cfg : Config) (args : Option (List String)),
      menv.loadResult = LoadOutcome.returned (some cfg) args none →
      (menv.canceledAtFirstCheckpoint = true ∨
        (menv.dbLoadErr = none ∧ menv.canceledAtSecondCheckpoint = true)) →
      dcrdMainModel menv = some ⟨none, false, false⟩) := by
  refine ⟨fun ctx => Iff.rfl, ?_⟩
  intro menv cfg args hl hc
  rcases hc with hc1 | ⟨hdb, hc2⟩
  · simp [dcrdMainModel, hl, hc1]
  · by_cases hc1 : menv.canceledAtFirstCheckpoint = true <;>
      simp [dcrdMainModel, hl, hc1, hdb, hc2]

/-- Witness for C7: a canceled context, and a main environment canceled at
the first checkpoint. -/
theorem c7_shutdown_before_server_witness :
    (shutdownRequested ⟨true⟩ = true ↔ (GoContext.mk true).canceled = true) ∧
      dcrdMainModel canceledMainEnv = some ⟨none, false, false⟩ :=
  ⟨c7_shutdown_before_server.1 ⟨true⟩,
    c7_shutdown_before_server.2 canceledMainEnv defaultConfig (some []) rfl (Or.inl rfl)⟩

/-- C8: the default configuration literal in `loadConfig` binds max total
peers to 125, max connections per source IP to 5, ban duration to 24
hours, and ban score threshold to 100; and a successful `loadConfig` run
on that default configuration (no overriding options) leaves those four
limits unchanged. -/
theorem c8_default_limits :
    (defaultConfig.MaxPeers = 125 ∧ defaultConfig.MaxSameIP = 5 ∧
      defaultConfig.BanDuration = 24 * timeHour ∧ defaultConfig.BanThreshold = 100) ∧
    (∀ (env : LoadEnv) (cfg : Config) (args : List String),
      env.cfg = defaultConfig →
      loadConfigModel env = LoadOutcome.returned (some cfg) (some args) none →
      cfg.MaxPeers = 125 ∧ cfg.MaxSameIP = 5 ∧
        cfg.BanDuration = 24 * timeHour ∧ cfg.BanThreshold = 100) := by
  refine ⟨⟨rfl, rfl, rfl, rfl⟩, ?_⟩
  intro env cfg args hdef h
  have h1 := loadConfigModel_success env cfg args h
  obtain ⟨c2, hp, hs, hb, ht, h3⟩ := loadConfigValidate_success env _ cfg args h1
  have h4 := loadConfigMining_success env c2 cfg args h3
  have h5 := (loadConfigFinal_success env _ cfg args h4).1
  rw [hdef] at hp hs hb ht
  rw [h5]
  exact ⟨hp.trans rfl, hs.trans rfl, hb.trans rfl, ht.trans rfl⟩

/-- Witness for C8: running `loadConfig` in the benign default
environment yields a config whose four limits are the defaults. -/
theorem c8_default_limits_witness :
    ∃ cfg, loadConfigModel okLoadEnv =
        LoadOutcome.returned (some cfg) (some []) none ∧
      (cfg.MaxPeers = 125 ∧ cfg.MaxSameIP = 5 ∧
        cfg.BanDuration = 24 * timeHour ∧ cfg.BanThreshold = 100) :=
  ⟨_, rfl, c8_default_limits.2 okLoadEnv _ [] rfl rfl⟩

/-- C9: `removeDuplicateAddresses` keeps exactly the first occurrence of
each distinct input element, in first-occurrence order (it equals the
first-occurrence dedup), introduces no new elements, and is what
`loadConfig` applies (through `normalizeAddresses`) to the listener,
RPC-listener and persistent-peer (`--addpeer`/`--connect`) address lists. -/
theorem c9_removeDuplicateAddresses_dedup (l : List String) :
    removeDuplicateAddresses l = firstOccurrenceDedup l ∧
      (∀ a, a ∈ l → (removeDuplicateAddresses l).count a = 1) ∧
      (∀ a, a ∈ removeDuplicateAddresses l ↔ a ∈ l) ∧
      (∀ (env : LoadEnv) (cfg : Config) (args : List String),
        loadConfigModel env = LoadOutcome.returned (some cfg) (some args) none →
        ∃ l1 l2 l3 l4,
          cfg.Listeners = removeDuplicateAddresses l1 ∧
          cfg.RPCListeners = removeDuplicateAddresses l2 ∧
          cfg.AddPeers = removeDuplicateAddresses l3 ∧
          cfg.ConnectPeers = removeDuplicateAddresses l4) := by
  refine ⟨removeDuplicateAddresses_eq_dedup l, ?_, ?_, ?_⟩
  · intro a ha
    rw [removeDuplicateAddresses_eq_dedup, count_firstOccurrenceDedup, if_pos ha]
  · intro a
    rw [removeDuplicateAddresses_eq_dedup]
    exact mem_firstOccurrenceDedup l a
  · intro env cfg args h
    have h1 := loadConfigModel_success env cfg args h
    obtain ⟨c2, _, _, _, _, h3⟩ := loadConfigValidate_success env _ cfg args h1
    have h4 := loadConfigMining_success env c2 cfg args h3
    have h5 := (loadConfigFinal_success env _ cfg args h4).1
    rw [h5]
    exact ⟨_, _, _, _, rfl, rfl, rfl, rfl⟩

/-- Witness for C9 on the list `["a", "b", "a"]`. -/
theorem c9_removeDuplicateAddresses_dedup_witness :
    (removeDuplicateAddresses ["a", "b", "a"]).count "a" = 1 :=
  (c9_removeDuplicateAddresses_dedup ["a", "b", "a"]).2.1 "a" (by decide)


/-! ### Index and slicing lemmas for the net address helpers -/

/-- A character absent from a list has no first index. -/
theorem firstIdx?_eq_none (c : Char) (l : List Char) (h : c ∉ l) :
    firstIdx? c l = none := by
  induction l with
  | nil => rfl
  | cons a l ih =>
    have h1 : ¬ a = c := fun hac => h (by rw [hac]; exact List.mem_cons_self c l)
    have h2 : c ∉ l := fun hc => h (List.mem_cons_of_mem a hc)
    rw [firstIdx?, if_neg h1, ih h2]
    rfl

/-- A character absent from a list has no last index. -/
theorem lastIdx?_eq_none (c : Char) (l : List Char) (h : c ∉ l) :
    lastIdx? c l = none := by
  induction l with
  | nil => rfl
  | cons a l ih =>
    have h1 : ¬ a = c := fun hac => h (by rw [hac]; exact List.mem_cons_self c l)
    have h2 : c ∉ l := fun hc => h (List.mem_cons_of_mem a hc)
    rw [lastIdx?, ih h2]
    exact if_neg h1

/-- First index over an append whose left part lacks the character. -/
theorem firstIdx?_append (c : Char) (l1 l2 : List Char) (h : c ∉ l1) :
    firstIdx? c (l1 ++ l2) = (firstIdx? c l2).map (· + l1.length) := by
  induction l1 with
  | nil => cases hfi : firstIdx? c l2 <;> simp [hfi]
  | cons a l1 ih =>
    have h1 : ¬ a = c := fun hac => h (by rw [hac]; exact List.mem_cons_self c l1)
    have h2 : c ∉ l1 := fun hc => h (List.mem_cons_of_mem a hc)
    rw [List.cons_append, firstIdx?, if_neg h1, ih h2]
    cases hfi : firstIdx? c l2 <;> simp [hfi]
    omega

/-- Last index over an append whose right part has a last index. -/
theorem lastIdx?_append_some (c : Char) (l1 l2 : List Char) (i : Nat)
    (h : lastIdx? c l2 = some i) :
    lastIdx? c (l1 ++ l2) = some (l1.length + i) := by
  induction l1 with
  | nil => simpa using h
  | cons a l1 ih =>
    rw [List.cons_append, lastIdx?, ih]
    simp
    omega

/-- Taking the length of the left part of an append returns it. -/
theorem take_len_append (l1 l2 : List Char) : (l1 ++ l2).take l1.length = l1 := by
  induction l1 with
  | nil => rfl
  | cons a l1 ih => simpa using ih

/-- Dropping the length of the left part of an append plus `n` drops `n`
from the right part. -/
theorem drop_len_append (l1 l2 : List Char) (n : Nat) :
    (l1 ++ l2).drop (l1.length + n) = l2.drop n := by
  induction l1 with
  | nil => simp
  | cons a l1 ih =>
    rw [List.cons_append]
    have harith : (a :: l1).length + n = (l1.length + n) + 1 := by
      simp [List.length_cons]
      omega
    rw [harith, List.drop_succ_cons, ih]

/-- `net.SplitHostPort` on `host ++ ":" ++ port` succeeds when host and
port contain no colon and no brackets. -/
theorem splitHostPortL_unbracketed (A P : List Char)
    (hA : ':' ∉ A) (hA1 : '[' ∉ A) (hA2 : ']' ∉ A)
    (hP : ':' ∉ P) (hP1 : '[' ∉ P) (hP2 : ']' ∉ P) :
    splitHostPortL (A ++ ':' :: P) = some (A, P) := by
  have hlast : lastIdx? ':' (A ++ ':' :: P) = some A.length := by
    have h0 : lastIdx? ':' (':' :: P) = some 0 := by
      rw [lastIdx?, lastIdx?_eq_none ':' P hP]
      simp
    simpa using lastIdx?_append_some ':' A (':' :: P) 0 h0
  have hhead : ¬ (A ++ ':' :: P).head? = some '[' := by
    cases A with
    | nil => simp
    | cons a A' =>
      simp only [List.cons_append, List.head?_cons, Option.some.injEq]
      intro hcon
      exact hA1 (by rw [hcon]; exact List.mem_cons_self '[' A')
  have hlb : '[' ∉ A ++ ':' :: P := by
    intro hm
    rcases List.mem_append.mp hm with hm | hm
    · exact hA1 hm
    · rcases List.mem_cons.mp hm with hm | hm
      · exact absurd hm (by decide)
      · exact hP1 hm
  have hrb : ']' ∉ A ++ ':' :: P := by
    intro hm
    rcases List.mem_append.mp hm with hm | hm
    · exact hA2 hm
    · rcases List.mem_cons.mp hm with hm | hm
      · exact absurd hm (by decide)
      · exact hP2 hm
  rw [splitHostPortL, hlast]
  simp only [hhead, if_false]
  rw [take_len_append, firstIdx?_eq_none ':' A hA,
    firstIdx?_eq_none '[' _ hlb, firstIdx?_eq_none ']' _ hrb]
  simp only [Option.isSome_none, Bool.false_eq_true, if_false]
  rw [drop_len_append A (':' :: P) 1]
  rfl

/-- `net.SplitHostPort` on `"[" ++ host ++ "]:" ++ port` (the shape
`net.JoinHostPort` produces for a host containing a colon) succeeds when
the host and port contain no brackets and the port no colon. -/
theorem splitHostPortL_bracketed (A P : List Char)
    (hA1 : '[' ∉ A) (hA2 : ']' ∉ A)
    (hP : ':' ∉ P) (hP1 : '[' ∉ P) (hP2 : ']' ∉ P) :
    splitHostPortL ('[' :: A ++ ']' :: ':' :: P) = some (A, P) := by
  rw [List.cons_append]
  have htail : lastIdx? ':' (']' :: ':' :: P) = some 1 := by
    rw [lastIdx?, lastIdx?, lastIdx?_eq_none ':' P hP]
    simp
  have hlast : lastIdx? ':' ('[' :: (A ++ ']' :: ':' :: P)) = some (A.length + 2) := by
    rw [lastIdx?, lastIdx?_append_some ':' A _ 1 htail]
  have hfirstCl : firstIdx? ']' ('[' :: (A ++ ']' :: ':' :: P)) = some (A.length + 1) := by
    rw [firstIdx?, if_neg (by decide), firstIdx?_append ']' A (']' :: ':' :: P) hA2,
      firstIdx?, if_pos rfl]
    simp
  simp only [splitHostPortL, hlast]
  rw [if_pos (show ('[' :: (A ++ ']' :: ':' :: P)).head? = some '[' from rfl)]
  simp only [hfirstCl]
  rw [if_pos trivial]
  have hnoLb : '[' ∉ A ++ ']' :: ':' :: P := by
    intro hm
    rcases List.mem_append.mp hm with hm | hm
    · exact hA1 hm
    · rcases List.mem_cons.mp hm with hm | hm
      · exact absurd hm (by decide)
      · rcases List.mem_cons.mp hm with hm | hm
        · exact absurd hm (by decide)
        · exact hP1 hm
  have hdrop1 : ('[' :: (A ++ ']' :: ':' :: P)).drop 1 = A ++ ']' :: ':' :: P := rfl
  rw [hdrop1, firstIdx?_eq_none '[' _ hnoLb]
  simp only [Option.isSome_none, Bool.false_eq_true, if_false]
  have hdrop2 : ('[' :: (A ++ ']' :: ':' :: P)).drop (A.length + 1 + 1) = ':' :: P := by
    rw [show A.length + 1 + 1 = (A.length + 1) + 1 from rfl, List.drop_succ_cons,
      drop_len_append A (']' :: ':' :: P) 1]
    rfl
  rw [hdrop2]
  have hnoRb : ']' ∉ (':' :: P) := by
    intro hm
    rcases List.mem_cons.mp hm with hm | hm
    · exact absurd hm (by decide)
    · exact hP2 hm
  rw [firstIdx?_eq_none ']' _ hnoRb]
  simp only [Option.isSome_none, Bool.false_eq_true, if_false]
  have htake : (('[' :: (A ++ ']' :: ':' :: P)).take (A.length + 1)).drop 1 = A := by
    rw [List.take_succ_cons, List.drop_succ_cons, List.drop_zero, take_len_append]
  have hdrop3 : ('[' :: (A ++ ']' :: ':' :: P)).drop (A.length + 2 + 1) = P := by
    rw [show A.length + 2 + 1 = (A.length + 2) + 1 from rfl, List.drop_succ_cons,
      drop_len_append A (']' :: ':' :: P) 2]
    rfl
  rw [htake, hdrop3]
  have hlen : ¬ A.length + 1 + 1 = ('[' :: (A ++ ']' :: ':' :: P)).length := by
    simp only [List.length_cons, List.length_append]
    omega
  rw [if_neg hlen]

/-- A present character has a first index. -/
theorem firstIdx?_isSome_of_mem (c : Char) (l : List Char) (h : c ∈ l) :
    (firstIdx? c l).isSome = true := by
  induction l with
  | nil => exact absurd h (List.not_mem_nil c)
  | cons a l ih =>
    rw [firstIdx?]
    by_cases hac : a = c
    · rw [if_pos hac]
      rfl
    · rw [if_neg hac]
      have : c ∈ l := by
        rcases List.mem_cons.mp h with hm | hm
        · exact absurd hm.symm hac
        · exact hm
      cases hq : firstIdx? c l
      · rw [hq] at ih
        exact absurd (ih this) (by decide)
      · rfl

/-- C10 (counterexample): `normalizeAddress` is not idempotent.  On the
malformed address `"["` with default port `"9108"`, the first
normalization produces `"[:9108"`, which `net.SplitHostPort` again rejects
(missing `']'`), so a second normalization brackets and appends again,
producing `"[[:9108]:9108"`. -/
theorem c10_counterexample_normalizeAddress :
    normalizeAddress (normalizeAddress "[" "9108") "9108" ≠
      normalizeAddress "[" "9108" := by
  decide

/-- C10 (amended): `normalizeAddress` is idempotent on every address that
contains no square bracket, provided the default port contains no colon
and no square bracket (as the ports `"9108"`/`"9109"` used by the code
do), and on every address that already parses as host:port — because an
address that already parses is returned unchanged, and one produced by
joining a bracket-free host with such a port parses as host:port.  (It is
not idempotent on malformed bracketed addresses; see the
counterexample.) -/
theorem c10_normalizeAddress_idempotent (addr p : String)
    (h : ('[' ∉ addr.data ∧ ']' ∉ addr.data ∧
          ':' ∉ p.data ∧ '[' ∉ p.data ∧ ']' ∉ p.data)
        ∨ (splitHostPort addr).isSome = true) :
    normalizeAddress (normalizeAddress addr p) p = normalizeAddress addr p := by
  by_cases hs : (splitHostPortL addr.data).isSome = true
  · obtain ⟨pr, hpr⟩ := Option.isSome_iff_exists.mp hs
    have h1 : normalizeAddress addr p = addr := by
      rw [normalizeAddress]
      simp [splitHostPort, hpr]
    rw [h1]
    exact h1
  · rcases h with ⟨ha1, ha2, hp1, hp2, hp3⟩ | hsome
    · have hnone : splitHostPort addr = none := by
        rw [splitHostPort]
        cases hq : splitHostPortL addr.data
        · rfl
        · exact absurd (by rw [hq]; rfl) hs
      have hjoin : normalizeAddress addr p = joinHostPort addr p := by
        rw [normalizeAddress, hnone]
      by_cases hc : ':' ∈ addr.data
      · have hjl : (joinHostPort addr p).data =
            '[' :: addr.data ++ ']' :: ':' :: p.data := by
          show joinHostPortL addr.data p.data = _
          rw [joinHostPortL, if_pos (firstIdx?_isSome_of_mem ':' addr.data hc)]
        have hsecond := splitHostPortL_bracketed addr.data p.data ha1 ha2 hp1 hp2 hp3
        rw [hjoin, normalizeAddress]
        have hres : splitHostPort (joinHostPort addr p) =
            some (String.mk addr.data, String.mk p.data) := by
          rw [splitHostPort, hjl, hsecond]
          rfl
        rw [hres]
      · have hcn : ':' ∉ addr.data := hc
        have hjl : (joinHostPort addr p).data = addr.data ++ ':' :: p.data := by
          show joinHostPortL addr.data p.data = _
          rw [joinHostPortL, if_neg ?hneg]
          case hneg =>
            rw [firstIdx?_eq_none ':' addr.data hcn]
            simp
        have hsecond :=
          splitHostPortL_unbracketed addr.data p.data hcn ha1 ha2 hp1 hp2 hp3
        rw [hjoin, normalizeAddress]
        have hres : splitHostPort (joinHostPort addr p) =
            some (String.mk addr.data, String.mk p.data) := by
          rw [splitHostPort, hjl, hsecond]
          rfl
        rw [hres]
    · exact absurd (by simpa [splitHostPort] using hsome) hs

/-- Witness for C10 (amended) at a bracket-free address and the real
default port. -/
theorem c10_normalizeAddress_idempotent_witness :
    normalizeAddress (normalizeAddress "127.0.0.1" "9108") "9108" =
      normalizeAddress "127.0.0.1" "9108" :=
  c10_normalizeAddress_idempotent "127.0.0.1" "9108" (Or.inl (by decide))

/-! ### ServiceFlag.String refinement lemmas -/

/-- Masking with a flag below 8 ignores the bits of `f` above the low
three (the `8 * q` part). -/
theorem and_low (q m j : Nat) (hm : m < 8) (hj : j < 8) :
    (8 * q + m) &&& j = m &&& j := by
  apply Nat.eq_of_testBit_eq
  intro i
  rw [Nat.testBit_and, Nat.testBit_and]
  by_cases hi : i < 3
  · have hbit : (8 * q + m).testBit i = m.testBit i := by
      interval_cases i <;>
        rw [Nat.testBit_to_div_mod, Nat.testBit_to_div_mod, decide_eq_decide] <;>
        norm_num <;> omega
    rw [hbit]
  · have h8 : (8 : Nat) ≤ 2 ^ i := by
      calc (8 : Nat) = 2 ^ 3 := by norm_num
      _ ≤ 2 ^ i := Nat.pow_le_pow_right (by norm_num) (by omega)
    have hj' : j.testBit i = false := Nat.testBit_lt_two_pow (by omega)
    rw [hj']
    simp



/-- C3: for every 64-bit service-flag value, `ServiceFlag.String` renders
exactly the recognized flag names whose bits are set, joined by `'|'` in
the fixed order `SFNodeNetwork`, `SFNodeBloom`, `SFNodeCF`, with any
residue outside the three recognized flags appended as `"0x"`-prefixed
lowercase hexadecimal, and `String(0) = "0x0"` — i.e. it equals the
claim-side rendering `claimServiceFlagString`. -/
theorem c3_serviceFlagString_spec (f : Nat) (hf : f < 2 ^ 64) :
    serviceFlagString f = claimServiceFlagString f := by
  clear hf
  obtain ⟨q, m, hm, rfl⟩ : ∃ q m, m < 8 ∧ f = 8 * q + m :=
    ⟨f / 8, f % 8, Nat.mod_lt f (by norm_num), by omega⟩
  rcases Nat.eq_zero_or_pos q with hq | hq
  · subst hq
    interval_cases m <;> decide
  · interval_cases m
    · -- bits of m = 0
      have eA1 : (8 * q + 0) &&& 1 = 0 := by
        rw [and_low q 0 1 (by omega) (by omega)]; decide
      have eA2 : (8 * q + 0) &&& 2 = 0 := by
        rw [and_low q 0 2 (by omega) (by omega)]; decide
      have eA4 : (8 * q + 0) &&& 4 = 0 := by
        rw [and_low q 0 4 (by omega) (by omega)]; decide
      have b0 : (8 * q + 0).testBit 0 = false := by
        simp [Nat.testBit_to_div_mod] <;> omega
      have b1 : (8 * q + 0).testBit 1 = false := by
        simp [Nat.testBit_to_div_mod] <;> omega
      have b2 : (8 * q + 0).testBit 2 = false := by
        simp [Nat.testBit_to_div_mod] <;> omega
      have hr : unrecognizedResidue (8 * q + 0) = 8 * q := by
        simp [unrecognizedResidue] <;> omega
      have hne0 : ¬ (8 * q + 0 = 0) := by omega
      have hneq : ¬ (8 * q = 0) := by omega
      simp only [serviceFlagString, claimServiceFlagString, orderedSFStrings, List.foldl,
        sfStep, sfStrings, SFNodeNetwork, SFNodeBloom, SFNodeCF, recognizedNames,
        eA1, eA2, eA4, b0, b1, b2, hr, hne0, hneq,
        eq_self_iff_true, if_true, if_false, ite_true, ite_false, ne_eq,
        not_false_iff, reduceCtorEq]
      rfl
    · -- bits of m = 1
      have eA1 : (8 * q + 1) &&& 1 = 1 := by
        rw [and_low q 1 1 (by omega) (by omega)]; decide
      have eS1 : 8 * q + 1 - 1 = 8 * q := by omega
      have eA2 : (8 * q) &&& 2 = 0 := by
        have h := and_low q 0 2 (by omega) (by omega)
        simpa using h
      have eA4 : (8 * q) &&& 4 = 0 := by
        have h := and_low q 0 4 (by omega) (by omega)
        simpa using h
      have b0 : (8 * q + 1).testBit 0 = true := by
        simp [Nat.testBit_to_div_mod] <;> omega
      have b1 : (8 * q + 1).testBit 1 = false := by
        simp [Nat.testBit_to_div_mod] <;> omega
      have b2 : (8 * q + 1).testBit 2 = false := by
        simp [Nat.testBit_to_div_mod] <;> omega
      have hr : unrecognizedResidue (8 * q + 1) = 8 * q := by
        simp [unrecognizedResidue] <;> omega
      have hne0 : ¬ (8 * q + 1 = 0) := by omega
      have hneq : ¬ (8 * q = 0) := by omega
      simp only [serviceFlagString, claimServiceFlagString, orderedSFStrings, List.foldl,
        sfStep, sfStrings, SFNodeNetwork, SFNodeBloom, SFNodeCF, recognizedNames,
        eA1, eS1, eA2, eA4, b0, b1, b2, hr, hne0, hneq,
        eq_self_iff_true, if_true, if_false, ite_true, ite_false, ne_eq,
        not_false_iff, reduceCtorEq]
      rfl
    · -- bits of m = 2
      have eA1 : (8 * q + 2) &&& 1 = 0 := by
        rw [and_low q 2 1 (by omega) (by omega)]; decide
      have eA2 : (8 * q + 2) &&& 2 = 2 := by
        rw [and_low q 2 2 (by omega) (by omega)]; decide
      have eS2 : 8 * q + 2 - 2 = 8 * q := by omega
      have eA4 : (8 * q) &&& 4 = 0 := by
        have h := and_low q 0 4 (by omega) (by omega)
        simpa using h
      have b0 : (8 * q + 2).testBit 0 = false := by
        simp [Nat.testBit_to_div_mod] <;> omega
      have b1 : (8 * q + 2).testBit 1 = true := by
        simp [Nat.testBit_to_div_mod] <;> omega
      have b2 : (8 * q + 2).testBit 2 = false := by
        simp [Nat.testBit_to_div_mod] <;> omega
      have hr : unrecognizedResidue (8 * q + 2) = 8 * q := by
        simp [unrecognizedResidue] <;> omega
      have hne0 : ¬ (8 * q + 2 = 0) := by omega
      have hneq : ¬ (8 * q = 0) := by omega
      simp only [serviceFlagString, claimServiceFlagString, orderedSFStrings, List.foldl,
        sfStep, sfStrings, SFNodeNetwork, SFNodeBloom, SFNodeCF, recognizedNames,
        eA1, eA2, eS2, eA4, b0, b1, b2, hr, hne0, hneq,
        eq_self_iff_true, if_true, if_false, ite_true, ite_false, ne_eq,
        not_false_iff, reduceCtorEq]
      rfl
    · -- bits of m = 3
      have eA1 : (8 * q + 3) &&& 1 = 1 := by
        rw [and_low q 3 1 (by omega) (by omega)]; decide
      have eS1 : 8 * q + 3 - 1 = 8 * q + 2 := by omega
      have eA2 : (8 * q + 2) &&& 2 = 2 := by
        rw [and_low q 2 2 (by omega) (by omega)]; decide
      have eS2 : 8 * q + 2 - 2 = 8 * q := by omega
      have eA4 : (8 * q) &&& 4 = 0 := by
        have h := and_low q 0 4 (by omega) (by omega)
        simpa using h
      have b0 : (8 * q + 3).testBit 0 = true := by
        simp [Nat.testBit_to_div_mod] <;> omega
      have b1 : (8 * q + 3).testBit 1 = true := by
        simp [Nat.testBit_to_div_mod] <;> omega
      have b2 : (8 * q + 3).testBit 2 = false := by
        simp [Nat.testBit_to_div_mod] <;> omega
      have hr : unrecognizedResidue (8 * q + 3) = 8 * q := by
        simp [unrecognizedResidue] <;> omega
      have hne0 : ¬ (8 * q + 3 = 0) := by omega
      have hneq : ¬ (8 * q = 0) := by omega
      simp only [serviceFlagString, claimServiceFlagString, orderedSFStrings, List.foldl,
        sfStep, sfStrings, SFNodeNetwork, SFNodeBloom, SFNodeCF, recognizedNames,
        eA1, eS1, eA2, eS2, eA4, b0, b1, b2, hr, hne0, hneq,
        eq_self_iff_true, if_true, if_false, ite_true, ite_false, ne_eq,
        not_false_iff, reduceCtorEq]
      rfl
    · -- bits of m = 4
      have eA1 : (8 * q + 4) &&& 1 = 0 := by
        rw [and_low q 4 1 (by omega) (by omega)]; decide
      have eA2 : (8 * q + 4) &&& 2 = 0 := by
        rw [and_low q 4 2 (by omega) (by omega)]; decide
      have eA4 : (8 * q + 4) &&& 4 = 4 := by
        rw [and_low q 4 4 (by omega) (by omega)]; decide
      have eS4 : 8 * q + 4 - 4 = 8 * q := by omega
      have b0 : (8 * q + 4).testBit 0 = false := by
        simp [Nat.testBit_to_div_mod] <;> omega
      have b1 : (8 * q + 4).testBit 1 = false := by
        simp [Nat.testBit_to_div_mod] <;> omega
      have b2 : (8 * q + 4).testBit 2 = true := by
        simp [Nat.testBit_to_div_mod] <;> omega
      have hr : unrecognizedResidue (8 * q + 4) = 8 * q := by
        simp [unrecognizedResidue] <;> omega
      have hne0 : ¬ (8 * q + 4 = 0) := by omega
      have hneq : ¬ (8 * q = 0) := by omega
      simp only [serviceFlagString, claimServiceFlagString, orderedSFStrings, List.foldl,
        sfStep, sfStrings, SFNodeNetwork, SFNodeBloom, SFNodeCF, recognizedNames,
        eA1, eA2, eA4, eS4, b0, b1, b2, hr, hne0, hneq,
        eq_self_iff_true, if_true, if_false, ite_true, ite_false, ne_eq,
        not_false_iff, reduceCtorEq]
      rfl
    · -- bits of m = 5
      have eA1 : (8 * q + 5) &&& 1 = 1 := by
        rw [and_low q 5 1 (by omega) (by omega)]; decide
      have eS1 : 8 * q + 5 - 1 = 8 * q + 4 := by omega
      have eA2 : (8 * q + 4) &&& 2 = 0 := by
        rw [and_low q 4 2 (by omega) (by omega)]; decide
      have eA4 : (8 * q + 4) &&& 4 = 4 := by
        rw [and_low q 4 4 (by omega) (by omega)]; decide
      have eS4 : 8 * q + 4 - 4 = 8 * q := by omega
      have b0 : (8 * q + 5).testBit 0 = true := by
        simp [Nat.testBit_to_div_mod] <;> omega
      have b1 : (8 * q + 5).testBit 1 = false := by
        simp [Nat.testBit_to_div_mod] <;> omega
      have b2 : (8 * q + 5).testBit 2 = true := by
        simp [Nat.testBit_to_div_mod] <;> omega
      have hr : unrecognizedResidue (8 * q + 5) = 8 * q := by
        simp [unrecognizedResidue] <;> omega
      have hne0 : ¬ (8 * q + 5 = 0) := by omega
      have hneq : ¬ (8 * q = 0) := by omega
      simp only [serviceFlagString, claimServiceFlagString, orderedSFStrings, List.foldl,
        sfStep, sfStrings, SFNodeNetwork, SFNodeBloom, SFNodeCF, recognizedNames,
        eA1, eS1, eA2, eA4, eS4, b0, b1, b2, hr, hne0, hneq,
        eq_self_iff_true, if_true, if_false, ite_true, ite_false, ne_eq,
        not_false_iff, reduceCtorEq]
      rfl
    · -- bits of m = 6
      have eA1 : (8 * q + 6) &&& 1 = 0 := by
        rw [and_low q 6 1 (by omega) (by omega)]; decide
      have eA2 : (8 * q + 6) &&& 2 = 2 := by
        rw [and_low q 6 2 (by omega) (by omega)]; decide
      have eS2 : 8 * q + 6 - 2 = 8 * q + 4 := by omega
      have eA4 : (8 * q + 4) &&& 4 = 4 := by
        rw [and_low q 4 4 (by omega) (by omega)]; decide
      have eS4 : 8 * q + 4 - 4 = 8 * q := by omega
      have b0 : (8 * q + 6).testBit 0 = false := by
        simp [Nat.testBit_to_div_mod] <;> omega
      have b1 : (8 * q + 6).testBit 1 = true := by
        simp [Nat.testBit_to_div_mod] <;> omega
      have b2 : (8 * q + 6).testBit 2 = true := by
        simp [Nat.testBit_to_div_mod] <;> omega
      have hr : unrecognizedResidue (8 * q + 6) = 8 * q := by
        simp [unrecognizedResidue] <;> omega
      have hne0 : ¬ (8 * q + 6 = 0) := by omega
      have hneq : ¬ (8 * q = 0) := by omega
      simp only [serviceFlagString, claimServiceFlagString, orderedSFStrings, List.foldl,
        sfStep, sfStrings, SFNodeNetwork, SFNodeBloom, SFNodeCF, recognizedNames,
        eA1, eA2, eS2, eA4, eS4, b0, b1, b2, hr, hne0, hneq,
        eq_self_iff_true, if_true, if_false, ite_true, ite_false, ne_eq,
        not_false_iff, reduceCtorEq]
      rfl
    · -- bits of m = 7
      have eA1 : (8 * q + 7) &&& 1 = 1 := by
        rw [and_low q 7 1 (by omega) (by omega)]; decide
      have eS1 : 8 * q + 7 - 1 = 8 * q + 6 := by omega
      have eA2 : (8 * q + 6) &&& 2 = 2 := by
        rw [and_low q 6 2 (by omega) (by omega)]; decide
      have eS2 : 8 * q + 6 - 2 = 8 * q + 4 := by omega
      have eA4 : (8 * q + 4) &&& 4 = 4 := by
        rw [and_low q 4 4 (by omega) (by omega)]; decide
      have eS4 : 8 * q + 4 - 4 = 8 * q := by omega
      have b0 : (8 * q + 7).testBit 0 = true := by
        simp [Nat.testBit_to_div_mod] <;> omega
      have b1 : (8 * q + 7).testBit 1 = true := by
        simp [Nat.testBit_to_div_mod] <;> omega
      have b2 : (8 * q + 7).testBit 2 = true := by
        simp [Nat.testBit_to_div_mod] <;> omega
      have hr : unrecognizedResidue (8 * q + 7) = 8 * q := by
        simp [unrecognizedResidue] <;> omega
      have hne0 : ¬ (8 * q + 7 = 0) := by omega
      have hneq : ¬ (8 * q = 0) := by omega
      simp only [serviceFlagString, claimServiceFlagString, orderedSFStrings, List.foldl,
        sfStep, sfStrings, SFNodeNetwork, SFNodeBloom, SFNodeCF, recognizedNames,
        eA1, eS1, eA2, eS2, eA4, eS4, b0, b1, b2, hr, hne0, hneq,
        eq_self_iff_true, if_true, if_false, ite_true, ite_false, ne_eq,
        not_false_iff, reduceCtorEq]
      rfl

/-- Witness for C3 at `f = 13` (bits for `SFNodeNetwork`, `SFNodeCF`, and
residue `0x8`). -/
theorem c3_serviceFlagString_spec_witness :
    13 < 2 ^ 64 ∧ serviceFlagString 13 = claimServiceFlagString 13 :=
  ⟨by norm_num, c3_serviceFlagString_spec 13 (by norm_num)⟩
